import Mathlib

/-!
Verification of the bookmarkstr extension services.

This file gives a shallow embedding of the two core modules of the
repository,

* `src/extension/popup/services/bookmark.service.ts` (class
  `BookmarkService`: `fetchBookmarks`, `parseBookmarkEvent`,
  `deleteBookmark`, helpers), and
* `src/extension/popup/services/relay.service.ts` (class `RelayService`:
  `connectToRelays`, `disconnectFromRelay`, `scheduleReconnect`,
  `updateRelayStatus`, `subscribe`),

and proves or refutes the spec claims about them.  Network effects
(queries, the WebSocket pool, timers) are modelled by passing the data a
call observes as explicit arguments; JavaScript numbers holding Unix
timestamps are modelled as `Int`; JavaScript falsy tests on strings and
numbers are modelled explicitly where the code relies on them.
-/

/-- The wire event structure (`NostrEvent` in `common/types.ts`):
fields `id`, `pubkey`, `created_at`, `kind`, `tags`, `content`, `sig`. -/
structure NostrEvent where
  id : String := ""
  pubkey : String := ""
  created_at : Int := 0
  kind : Int := 0
  tags : List (List String) := []
  content : String := ""
  sig : String := ""
deriving DecidableEq

/-- The type `ProcessedBookmark` from `common/types.ts`, restricted to the two
new-format variants that `parseBookmarkEvent` produces and `deleteBookmark`
re-encodes (the legacy `url` / `article` / `hashtag` variants are dead in the
modelled code paths).  `website` carries `id`, `title`, `url`, `eventId`,
`createdAt`; `note` carries `id`, `title`, `eventId`, optional `relayHint`,
`createdAt`, optional `content`. -/
inductive ProcessedBookmark where
  | website (id : String) (title : String) (url : String) (eventId : String)
      (createdAt : Int)
  | note (id : String) (title : String) (eventId : String)
      (relayHint : Option String) (createdAt : Int) (content : Option String)
deriving DecidableEq

/-- The `createdAt` field of a `ProcessedBookmark`. -/
def ProcessedBookmark.createdAt : ProcessedBookmark → Int
  | .website _ _ _ _ c => c
  | .note _ _ _ _ c _ => c

/-- The `id` field of a `ProcessedBookmark` (URL for websites, the
referenced event id for notes, per the construction in
`parseBookmarkEvent`). -/
def ProcessedBookmark.id : ProcessedBookmark → String
  | .website i _ _ _ _ => i
  | .note i _ _ _ _ _ => i

/-- The `eventId` field of a `ProcessedBookmark`. -/
def ProcessedBookmark.eventId : ProcessedBookmark → String
  | .website _ _ _ e _ => e
  | .note _ _ e _ _ _ => e

/-- Models `isValidUrl` of `bookmark.service.ts`: the code builds a browser
`URL` from the string and accepts protocols `http:` and `https:`.  The
browser URL parser is a platform primitive; it is abstracted here to the
scheme-prefix check, which is the part the service logic depends on. -/
def isValidUrl (urlString : String) : Bool :=
  "http://".data.isPrefixOf urlString.data ||
    "https://".data.isPrefixOf urlString.data

/-- Models `extractTitleFromUrl` of `bookmark.service.ts`: hostname of the
URL with a leading "www." removed.  The browser URL parser and the
path-segment title-casing are platform-level string cosmetics abstracted
here; no claim depends on this derived title. -/
def extractTitleFromUrl (url : String) : String :=
  let rest :=
    if url.startsWith "https://" then url.drop 8
    else if url.startsWith "http://" then url.drop 7
    else url
  let hostname := rest.takeWhile (fun c => c ≠ '/')
  if hostname.startsWith "www." then hostname.drop 4 else hostname

/-- One iteration of the tag loop in `parseBookmarkEvent` (lines 431-476 of
`bookmark.service.ts`), for the tag at position `idx` of the record with id
`recId` and timestamp `eventCreatedAt`.  The code computes
`createdAt = eventCreatedAt - index * 60` ("1 minute apart", a
pseudo-timestamp for sorting), then:

* tag `["r", url, ...]` with a valid http(s) `url` gives a `website` with
  `id = url`, title `tag[2]` or the derived title, `eventId = recId`;
* tag `["e", eid, ...]` gives a `note` with `id = eid`,
  `relayHint = tag[2]` if present, title `tag[3]` if present else
  "Nostr Note";
* every other tag is skipped. -/
def parseBookmarkTag (recId : String) (eventCreatedAt : Int) (idx : Nat)
    (tag : List String) : Option ProcessedBookmark :=
  let createdAt : Int := eventCreatedAt - 60 * (idx : Int)
  match tag with
  | t0 :: t1 :: rest =>
    if t0 = "r" then
      if isValidUrl t1 then
        some (.website t1
          (match rest with
            | [] => extractTitleFromUrl t1
            | t :: _ => t) t1 recId createdAt)
      else none
    else if t0 = "e" then
      some (.note t1
        (match rest with
          | _ :: t :: _ => t
          | _ => "Nostr Note") t1 rest.head? createdAt none)
    else none
  | _ => none

/-- The descending-`createdAt` comparator relation used by the
`bookmarks.sort((a, b) => b.createdAt - a.createdAt)` call. -/
def bookmarkGE (a b : ProcessedBookmark) : Prop :=
  b.createdAt ≤ a.createdAt

instance : DecidableRel bookmarkGE := fun a b =>
  inferInstanceAs (Decidable (b.createdAt ≤ a.createdAt))

instance : IsTotal ProcessedBookmark bookmarkGE :=
  ⟨fun a b => (le_total a.createdAt b.createdAt).symm.imp id id⟩

instance : IsTrans ProcessedBookmark bookmarkGE :=
  ⟨fun _ _ _ h1 h2 => le_trans h2 h1⟩

/-- The sort at the end of `parseBookmarkEvent`: newest first.  JavaScript
`Array.prototype.sort` is a stable comparator sort (ES2019); a stable
insertion sort models it. -/
def sortBookmarksDesc (l : List ProcessedBookmark) : List ProcessedBookmark :=
  List.insertionSort bookmarkGE l

/-- The tag loop of `parseBookmarkEvent` before sorting: every tag together
with its position, filtered through `parseBookmarkTag`. -/
def parseEntries (recId : String) (eventCreatedAt : Int)
    (tags : List (List String)) : List ProcessedBookmark :=
  tags.enum.filterMap (fun p => parseBookmarkTag recId eventCreatedAt p.1 p.2)

/-- Models `parseBookmarkEvent` of `bookmark.service.ts`: parse every tag of the
kind-10003 record and sort the results by `createdAt`, newest first. -/
def parseBookmarkEvent (event : NostrEvent) : List ProcessedBookmark :=
  sortBookmarksDesc (parseEntries event.id event.created_at event.tags)

/-- The tag-rebuild loop of `deleteBookmark` (lines 564-576 of
`bookmark.service.ts`): a `website` becomes `["r", url, title]`; a `note`
becomes `["e", eventId]` followed by the relay hint when it is truthy (a
present, non-empty string) and then by the title. -/
def encodeBookmarkTag : ProcessedBookmark → List String
  | .website _ title url _ _ => ["r", url, title]
  | .note _ title eventId relayHint _ _ =>
    "e" :: eventId ::
      ((match relayHint with
        | some h => if h = "" then [] else [h]
        | none => []) ++ [title])

/-- The full rebuilt tag list of `deleteBookmark`, in the order of the
surviving bookmarks. -/
def buildTags (bookmarks : List ProcessedBookmark) : List (List String) :=
  bookmarks.map encodeBookmarkTag

/-- The descending-`created_at` comparator relation used by the
`[...events].sort((a, b) => b.created_at - a.created_at)` calls in
`fetchBookmarks` and `deleteBookmark`. -/
def eventGE (a b : NostrEvent) : Prop :=
  b.created_at ≤ a.created_at

instance : DecidableRel eventGE := fun a b =>
  inferInstanceAs (Decidable (b.created_at ≤ a.created_at))

instance : IsTotal NostrEvent eventGE :=
  ⟨fun a b => (le_total a.created_at b.created_at).symm.imp id id⟩

instance : IsTrans NostrEvent eventGE :=
  ⟨fun _ _ _ h1 h2 => le_trans h2 h1⟩

/-- The `sortedEvents` computation: events sorted by `created_at`, newest
first (stable comparator sort, modelled by a stable insertion sort). -/
def sortEventsDesc (events : List NostrEvent) : List NostrEvent :=
  List.insertionSort eventGE events

/-- Lines 214-226 of `bookmark.service.ts` (`fetchBookmarks`): sort the
returned kind-10003 events by `created_at` descending and use the first
one — "the most recent replaceable event" — as the canonical record. -/
def selectCanonical (events : List NostrEvent) : Option NostrEvent :=
  (sortEventsDesc events).head?

/-- The mock data returned by `fetchBookmarks` when no relay connection can
be established (lines 140-163 of `bookmark.service.ts`).  `nowSec` models
`Date.now() / 1000`, the current time in seconds; the second entry is
time-stamped one hour earlier. -/
def mockBookmarks (nowSec : Int) : List ProcessedBookmark :=
  [ .website "https://example.com/1" "Example Website 1"
      "https://example.com/1" "mock-event-1" nowSec,
    .website "https://example.com/2" "Example Website 2"
      "https://example.com/2" "mock-event-2" (nowSec - 3600) ]

/-- The note-content enrichment step of `fetchBookmarks`: for a `note`
bookmark, `fetchNoteFallback` is consulted (modelled by `lookup`, `none`
standing for "not found on any relay"); a truthy (non-empty) result is
stored in the `content` field, anything else leaves the bookmark as is. -/
def enrichNoteContents (lookup : String → Option String) :
    List ProcessedBookmark → List ProcessedBookmark :=
  List.map fun b =>
    match b with
    | .note i t eid hint ca _ =>
      match lookup eid with
      | some c => if c = "" then b else .note i t eid hint ca (some c)
      | none => b
    | w => w

/-- Models `fetchBookmarks` of `bookmark.service.ts`, with the data each network
interaction observes passed explicitly:

* `relaysToUse` — the relay set after `ensureRelayConnections`; when it is
  empty the hard-coded `mockBookmarks` are returned (lines 140-163);
* `events` — the kind-10003 events returned by the querySync (the retry
  without a `since` bound issues the identical filter, so its result is
  folded into the same list);
* `refreshedEvents` — the events returned by the force-refresh requery that
  runs when the freshest event has no tags while older ones exist (empty
  when that requery fails or returns nothing);
* `lookup` — the per-note content fetch of the enrichment step;
* `nowSec` — the current time in seconds, used only by the mock branch. -/
def fetchBookmarks (relaysToUse : List String) (events : List NostrEvent)
    (refreshedEvents : List NostrEvent) (lookup : String → Option String)
    (nowSec : Int) : List ProcessedBookmark :=
  if relaysToUse = [] then
    mockBookmarks nowSec
  else
    match selectCanonical events with
    | none => []
    | some ev =>
      let chosen :=
        if ev.tags.length = 0 ∧ events.length > 1 then
          match selectCanonical refreshedEvents with
          | some r =>
            if r.id ≠ ev.id ∧ ev.tags.length ≤ r.tags.length then r else ev
          | none => ev
        else ev
      enrichNoteContents lookup (parseBookmarkEvent chosen)

/-- The `latestTimestamp` computation inside `deleteBookmark` (lines
578-612 of `bookmark.service.ts`): `0` when no kind-10003 event was
observed on the queried relays (no connected relays, query error, or empty
result), otherwise the `created_at` of the first event after sorting
newest-first. -/
def latestObservedTimestamp (observed : List NostrEvent) : Int :=
  match sortEventsDesc observed with
  | [] => 0
  | e :: _ => e.created_at

/-- The new kind-10003 record assembled by `deleteBookmark` before signing
(kind, timestamp, rebuilt tags, empty content, author key). -/
structure NewRecordDraft where
  kind : Int
  created_at : Int
  tags : List (List String)
  content : String
  pubkey : String
deriving DecidableEq

/-- Models `deleteBookmark` of `bookmark.service.ts` up to the signing step, with
the observed data passed explicitly:

* `currentBookmarks` — the freshly fetched bookmark list (the code calls
  `fetchBookmarks` first; deletion never operates on a cached view);
* `observed` — the kind-10003 events returned by the timestamp query;
* `currentTime` — `Math.floor(Date.now() / 1000)` at record construction.

Returns the record draft handed to `window.nostr.signEvent`, or the error
thrown before it.  Signing and publishing happen strictly after an `ok`
result, so an `error` result means no record is signed and nothing is
published to any relay. -/
def deleteBookmark (bookmarkId : String) (publicKey : String)
    (currentBookmarks : List ProcessedBookmark) (observed : List NostrEvent)
    (currentTime : Int) : Except String NewRecordDraft :=
  match currentBookmarks.find? (fun b => b.id == bookmarkId) with
  | none => .error ("Bookmark with ID " ++ bookmarkId ++ " not found")
  | some _ =>
    let updatedBookmarks := currentBookmarks.filter (fun b => b.id != bookmarkId)
    if currentBookmarks.length = updatedBookmarks.length then
      .error "Failed to remove bookmark from list"
    else
      let tags := buildTags updatedBookmarks
      let latestTimestamp := latestObservedTimestamp observed
      let newTimestamp := max (latestTimestamp + 1) currentTime
      .ok { kind := 10003, created_at := newTimestamp, tags := tags,
            content := "", pubkey := publicKey }

/-- The records a `deleteBookmark` run hands to the relay-publish loop: the
signed draft on success, nothing when the call failed beforehand. -/
def publishedDrafts (r : Except String NewRecordDraft) : List NewRecordDraft :=
  match r with
  | .ok ev => [ev]
  | .error _ => []

/-- The five relay status values of `relay.service.ts`. -/
inductive StatusKind where
  | connecting | connected | disconnecting | disconnected | errorStatus
deriving DecidableEq

/-- One entry of the `relayStatuses` map: the `status` string and the
optional `error` message of a `RelayStatus` record (the `url` is the map
key). -/
structure RelayStatusRec where
  status : StatusKind
  errMsg : Option String
deriving DecidableEq

/-- JavaScript `Map.set` on an association list: replace the value of an
existing key in place, append a new key at the end (insertion order is
preserved, as for a JS `Map`). -/
def mapSet (m : List (String × RelayStatusRec)) (k : String)
    (v : RelayStatusRec) : List (String × RelayStatusRec) :=
  match m with
  | [] => [(k, v)]
  | (k', v') :: rest =>
    if k' = k then (k, v) :: rest else (k', v') :: mapSet rest k v

/-- The mutable state of the `RelayService` singleton:

* `targetRelays` — the `Set<string>` of relays the user wants (insertion
  order, no duplicates);
* `relayStatuses` — the `Map<string, RelayStatus>`;
* `reconnectPending` — the urls whose entry in `reconnectTimeouts` holds a
  live, not-yet-fired timer (`setTimeout` handle); scheduling inserts,
  `clearTimeout` plus `Map.delete` removes, and firing consumes the url
  (the stale map entry left behind by a fired timer has no observable
  effect, so it is not modelled separately);
* `subscriptions` — the ids of the open subscriptions. -/
structure RelayServiceState where
  targetRelays : List String := []
  relayStatuses : List (String × RelayStatusRec) := []
  reconnectPending : List String := []
  subscriptions : List String := []
deriving DecidableEq

/-- The status currently recorded for `url`, if any. -/
def statusOf (s : RelayServiceState) (url : String) : Option StatusKind :=
  (s.relayStatuses.lookup url).map RelayStatusRec.status

/-- Models `scheduleReconnect` of `relay.service.ts` (lines 229-251), as far as the
timer bookkeeping goes: clear any existing reconnect timeout for `url` and
register a new one.  What the timer does when it fires is `fireReconnect`
below. -/
def scheduleReconnect (s : RelayServiceState) (url : String) :
    RelayServiceState :=
  { s with reconnectPending := url :: s.reconnectPending.filter (fun x => x ≠ url) }

/-- The store-and-react part of `updateRelayStatus` (lines 220-226 of
`relay.service.ts`): write the new status record into the map and, when the
new status is `error` and the url is still a target, schedule a
reconnect. -/
def applyStatusUpdate (s : RelayServiceState) (url : String)
    (status : StatusKind) (err : Option String) : RelayServiceState :=
  if status = StatusKind.errorStatus ∧ url ∈ s.targetRelays then
    scheduleReconnect
      { s with relayStatuses := mapSet s.relayStatuses url ⟨status, err⟩ } url
  else
    { s with relayStatuses := mapSet s.relayStatuses url ⟨status, err⟩ }

/-- Models `updateRelayStatus` of `relay.service.ts` (lines 214-227): skip when
both the status and the error message are unchanged; otherwise store the
new record and react to it (`applyStatusUpdate`). -/
def updateRelayStatus (s : RelayServiceState) (url : String)
    (status : StatusKind) (err : Option String) : RelayServiceState :=
  match s.relayStatuses.lookup url with
  | some c =>
    if c.status == status && c.errMsg == err then s
    else applyStatusUpdate s url status err
  | none => applyStatusUpdate s url status err

/-- The synchronous prefix of the per-url closures in `connectToRelays`
(lines 281-290): every url runs up to its first `await` before any
connection outcome lands, so for each url in order the code checks the
current status, skips urls that are already `connected` or `connecting`,
and otherwise adds the url to the target set and marks it `connecting`.
Returns the updated state and the urls whose connection is actually
attempted. -/
def connectPhase1 (s : RelayServiceState) (urls : List String) :
    RelayServiceState × List String :=
  urls.foldl
    (fun acc url =>
      match statusOf acc.1 url with
      | some .connected => acc
      | some .connecting => acc
      | _ =>
        let st := acc.1
        let st := { st with targetRelays :=
          if url ∈ st.targetRelays then st.targetRelays
          else st.targetRelays ++ [url] }
        (updateRelayStatus st url .connecting none, acc.2 ++ [url]))
    (s, [])

/-- The continuation of one per-url closure after `pool.ensureRelay`
settles (lines 291-308): on success mark the relay `connected`; on failure
(`res = some message`) mark it `error` — which schedules a reconnect, the
url still being a target — and then remove the url from the target set. -/
def connectAttempt (s : RelayServiceState) (url : String)
    (res : Option String) : RelayServiceState :=
  match res with
  | none => updateRelayStatus s url .connected none
  | some msg =>
    let s1 := updateRelayStatus s url .errorStatus (some msg)
    { s1 with targetRelays := s1.targetRelays.filter (fun x => x ≠ url) }

/-- The state after all connection attempts of a `connectToRelays` call
have settled.  `outcome url = none` means `pool.ensureRelay(url)` resolved;
`outcome url = some msg` means it rejected or timed out with that message.
The per-url effects touch only entries of the attempted url itself, so the
settle order does not matter and the attempts are folded in list order.
The results loop that follows (lines 316-331) only logs: each per-url
promise has its rejection caught inside, so the rejected branch is
unreachable and no further state change happens. -/
def connectAttemptsState (s : RelayServiceState) (urls : List String)
    (outcome : String → Option String) : RelayServiceState :=
  let p := connectPhase1 s urls
  p.2.foldl (fun st url => connectAttempt st url (outcome url)) p.1

/-- Models `getConnectedRelays().length`: the number of entries of the status map
whose status is `connected` — across the whole map, not only the urls of
the current call. -/
def connectedCount (s : RelayServiceState) : Nat :=
  (s.relayStatuses.filter (fun p => p.2.status = StatusKind.connected)).length

/-- The urls of the status-map entries currently `connected`, in map
iteration (insertion) order — `getConnectedRelays` of `relay.service.ts`. -/
def getConnectedRelays (s : RelayServiceState) : List String :=
  (s.relayStatuses.filter (fun p => p.2.status = StatusKind.connected)).map
    Prod.fst

/-- Models `connectToRelays` of `relay.service.ts` (lines 269-354): run all per-url
attempts, then count the connected relays over the whole status map and
throw `Failed to connect to any relays` when that count is zero and the
passed list was non-empty.  The state (including every per-url status
recorded during the attempt) is kept in both branches. -/
def connectToRelays (s : RelayServiceState) (urls : List String)
    (outcome : String → Option String) :
    RelayServiceState × Except String Unit :=
  let s2 := connectAttemptsState s urls outcome
  if connectedCount s2 = 0 ∧ urls ≠ [] then
    (s2, .error "Failed to connect to any relays")
  else
    (s2, .ok ())

/-- Models `disconnectFromRelay` of `relay.service.ts` (lines 356-394).  For a
non-target url: normalize the status to `disconnected` (if it is not
already) and return — note that the pending-reconnect check is skipped on
this path.  For a target url: clear the pending reconnect timer, remove the
url from the targets, mark it `disconnecting`, close all open
subscriptions, close the pool connection (the returned `Nat` counts these
`pool.close` calls; the model takes the non-throwing branch of the
`try/catch`), and mark it `disconnected`. -/
def disconnectFromRelay (s : RelayServiceState) (url : String) :
    RelayServiceState × Nat :=
  if url ∈ s.targetRelays then
    let s1 := { s with reconnectPending := s.reconnectPending.filter (fun x => x ≠ url) }
    let s2 := { s1 with targetRelays := s1.targetRelays.filter (fun x => x ≠ url) }
    let s3 := updateRelayStatus s2 url .disconnecting none
    let s4 := { s3 with subscriptions := [] }
    let s5 := updateRelayStatus s4 url .disconnected none
    (s5, 1)
  else
    let s1 :=
      if statusOf s url ≠ some .disconnected then
        updateRelayStatus s url .disconnected none
      else s
    (s1, 0)

/-- The body of the timer registered by `scheduleReconnect` (lines
237-248), run when the timer fires: consume the pending timer and call
`connectToRelays([url])` unconditionally — there is no target-membership
check at fire time.  Only when that call throws does the code test
`targetRelays.has(url)` before scheduling the next attempt. -/
def fireReconnect (s : RelayServiceState) (url : String)
    (outcome : String → Option String) : RelayServiceState :=
  let s1 := { s with reconnectPending := s.reconnectPending.filter (fun x => x ≠ url) }
  let p := connectToRelays s1 [url] outcome
  match p.2 with
  | .ok _ => p.1
  | .error _ =>
    if url ∈ p.1.targetRelays then scheduleReconnect p.1 url else p.1

/-- The nostr filter fields that `RelayService.subscribe` reads when merging
(kinds, authors, ids, the `#e` and `#p` tag matches, since, until, limit);
all are optional on the wire. -/
structure NostrFilter where
  kinds : Option (List Int) := none
  authors : Option (List String) := none
  ids : Option (List String) := none
  eTags : Option (List String) := none
  pTags : Option (List String) := none
  since : Option Int := none
  until' : Option Int := none
  limit : Option Int := none
deriving DecidableEq

/-- The single filter built by the merge in `RelayService.subscribe` (lines
413-423).  `since` is a JavaScript number that can be `Infinity` (modelled
by `WithTop Int`); `until` and `limit` can be `-Infinity` when no filter is
passed at all (modelled by `WithBot Int`). -/
structure MergedFilter where
  kinds : List Int
  authors : List String
  ids : List String
  eTags : List String
  pTags : List String
  since : WithTop Int
  until' : WithBot Int
  limit : WithBot Int
deriving DecidableEq

/-- Models `f.since || Infinity`: a missing `since` — or a `since` of `0`, `0`
being falsy in JavaScript — becomes `Infinity`. -/
def jsSinceOrInf (x : Option Int) : WithTop Int :=
  match x with
  | some v => if v = 0 then ⊤ else (v : WithTop Int)
  | none => ⊤

/-- Models `f.until || 0` and `f.limit || 0`: a missing (or zero) value becomes
`0`. -/
def jsOrZero (x : Option Int) : Int :=
  match x with
  | some v => v
  | none => 0

/-- The filter merge of `RelayService.subscribe` (lines 413-423 of
`relay.service.ts`): concatenate `kinds`, `authors`, `ids`, `#e` and `#p`
over all filters (`f.kinds || []` etc.), and set
`since = Math.min(...(f.since || Infinity))`,
`until = Math.max(...(f.until || 0))`,
`limit = Math.max(...(f.limit || 0))`. -/
def mergedFilter (filters : List NostrFilter) : MergedFilter :=
  { kinds := filters.flatMap (fun f => f.kinds.getD [])
    authors := filters.flatMap (fun f => f.authors.getD [])
    ids := filters.flatMap (fun f => f.ids.getD [])
    eTags := filters.flatMap (fun f => f.eTags.getD [])
    pTags := filters.flatMap (fun f => f.pTags.getD [])
    since := (filters.map (fun f => jsSinceOrInf f.since)).foldr min ⊤
    until' := (filters.map (fun f => ((jsOrZero f.until' : Int) : WithBot Int))).foldr max ⊥
    limit := (filters.map (fun f => ((jsOrZero f.limit : Int) : WithBot Int))).foldr max ⊥ }

/-- Models `RelayService.subscribe` (lines 404-434): fail fast when no relay is
connected, otherwise issue the single merged filter against the connected
relays.  The pair returned models the arguments of the underlying
`pool.subscribe` call. -/
def subscribeFilters (s : RelayServiceState) (filters : List NostrFilter) :
    Except String (List String × MergedFilter) :=
  let connectedRelays := getConnectedRelays s
  if connectedRelays = [] then
    .error "No connected relays available"
  else
    .ok (connectedRelays, mergedFilter filters)

/-- The head of the newest-first event sort is an observed event with the
largest `created_at`. -/
theorem sortEventsDesc_head_max (events : List NostrEvent) (h : events ≠ []) :
    ∃ e, (sortEventsDesc events).head? = some e ∧ e ∈ events ∧
      ∀ x ∈ events, x.created_at ≤ e.created_at := by
  have hperm := List.perm_insertionSort eventGE events
  have hsorted := List.sorted_insertionSort eventGE events
  rcases hs : List.insertionSort eventGE events with _ | ⟨y, rest⟩
  · rw [hs] at hperm
    exact absurd hperm.symm.eq_nil h
  · rw [hs] at hperm hsorted
    refine ⟨y, ?_, hperm.mem_iff.mp (List.mem_cons_self y rest), ?_⟩
    · simp [sortEventsDesc, hs]
    · intro x hx
      rcases List.mem_cons.mp (hperm.mem_iff.mpr hx) with hxy | hxr
      · simp [hxy]
      · exact List.rel_of_sorted_cons hsorted x hxr

/-- The maximum `created_at` among a list of observed records, `0` when the
list is empty — the quantity the spec calls the "latest known timestamp". -/
def maxObservedCreatedAt : List NostrEvent → Int
  | [] => 0
  | e :: es => es.foldl (fun m x => max m x.created_at) e.created_at

/-- Folding `max` over the tail dominates the seed and every element, and
returns the seed or some element. -/
theorem foldl_max_createdAt (es : List NostrEvent) (a : Int) :
    a ≤ es.foldl (fun m x => max m x.created_at) a ∧
    (∀ x ∈ es, x.created_at ≤ es.foldl (fun m x => max m x.created_at) a) ∧
    (es.foldl (fun m x => max m x.created_at) a = a ∨
      ∃ x ∈ es, es.foldl (fun m x => max m x.created_at) a = x.created_at) := by
  induction es generalizing a with
  | nil => simp
  | cons e rest ih =>
    obtain ⟨ih1, ih2, ih3⟩ := ih (max a e.created_at)
    refine ⟨le_trans (le_max_left _ _) ih1, ?_, ?_⟩
    · intro x hx
      rcases List.mem_cons.mp hx with hxe | hx
      · subst hxe; exact le_trans (le_max_right _ _) ih1
      · exact ih2 x hx
    · rcases ih3 with h0 | ⟨x, hx, hfx⟩
      · rcases max_choice a e.created_at with hm | hm
        · left; simpa [hm] using h0
        · right; exact ⟨e, List.mem_cons_self _ _, by simpa [hm] using h0⟩
      · right; exact ⟨x, List.mem_cons_of_mem _ hx, hfx⟩

/-- The `latestTimestamp` the code computes by sorting and taking the first
event equals the maximum `created_at` over the observed events (`0` when
none were observed). -/
theorem latestObservedTimestamp_eq_max (observed : List NostrEvent) :
    latestObservedTimestamp observed = maxObservedCreatedAt observed := by
  rcases observed with _ | ⟨e, es⟩
  · rfl
  · obtain ⟨m, hm, hmem, hmax⟩ := sortEventsDesc_head_max (e :: es) (by simp)
    obtain ⟨h1, h2, h3⟩ := foldl_max_createdAt es e.created_at
    have hlhs : latestObservedTimestamp (e :: es) = m.created_at := by
      unfold latestObservedTimestamp
      rcases hs : sortEventsDesc (e :: es) with _ | ⟨y, rest⟩
      · rw [hs] at hm; cases hm
      · rw [hs] at hm
        simp only [List.head?_cons, Option.some.injEq] at hm
        rw [hm]
    have hub : m.created_at ≤ maxObservedCreatedAt (e :: es) := by
      rcases List.mem_cons.mp hmem with h | h
      · simpa [maxObservedCreatedAt, h] using h1
      · exact h2 m h
    have hlb : maxObservedCreatedAt (e :: es) ≤ m.created_at := by
      rcases h3 with h0 | ⟨x, hx, hfx⟩
      · simpa [maxObservedCreatedAt, h0] using hmax e (List.mem_cons_self _ _)
      · simpa [maxObservedCreatedAt, hfx] using hmax x (List.mem_cons_of_mem _ hx)
    rw [hlhs]
    exact le_antisymm (by simpa using hub) (by simpa using hlb)

/-- Claim C4: for every non-empty list of kind-10003 records returned by
the query, `fetchBookmarks` (through `selectCanonical`, the sort-and-take-
first of lines 214-226) picks a returned record whose `createdAt` is
maximal among all returned records. -/
theorem c4_canonical_selection (events : List NostrEvent) (h : events ≠ []) :
    ∃ e, selectCanonical events = some e ∧ e ∈ events ∧
      ∀ x ∈ events, x.created_at ≤ e.created_at := by
  obtain ⟨e, he, hmem, hmax⟩ := sortEventsDesc_head_max events h
  exact ⟨e, he, hmem, hmax⟩

/-- Concrete instantiation of claim C4: among records with `created_at`
100, 150 and 120, the selected canonical record is the one with 150. -/
theorem c4_canonical_selection_witness :
    (([{ id := "a", created_at := 100 }, { id := "b", created_at := 150 },
        { id := "c", created_at := 120 }] : List NostrEvent) ≠ []) ∧
    (∃ e, selectCanonical [{ id := "a", created_at := 100 },
        { id := "b", created_at := 150 }, { id := "c", created_at := 120 }] = some e ∧
      e ∈ ([{ id := "a", created_at := 100 }, { id := "b", created_at := 150 },
        { id := "c", created_at := 120 }] : List NostrEvent) ∧
      ∀ x ∈ ([{ id := "a", created_at := 100 }, { id := "b", created_at := 150 },
        { id := "c", created_at := 120 }] : List NostrEvent),
        x.created_at ≤ e.created_at) :=
  ⟨by decide, c4_canonical_selection _ (by decide)⟩

/-- Claim C1: whenever `deleteBookmark` reaches the republish step (the
bookmark to delete is present in the freshly fetched list), the rebuilt
new record gets `created_at = max(L + 1, T)`, where `L` is the maximum
`created_at` among the kind-10003 records observed on the queried relays
(`0` if none were observed) and `T` is the current time at event
construction; in particular when `T < L` the new timestamp is `L + 1`. -/
theorem c1_delete_timestamp (bookmarkId publicKey : String)
    (currentBookmarks : List ProcessedBookmark) (observed : List NostrEvent)
    (currentTime : Int) (h : ∃ b ∈ currentBookmarks, b.id = bookmarkId) :
    ∃ ev, deleteBookmark bookmarkId publicKey currentBookmarks observed
        currentTime = .ok ev ∧
      ev.created_at = max (maxObservedCreatedAt observed + 1) currentTime ∧
      (currentTime < maxObservedCreatedAt observed →
        ev.created_at = maxObservedCreatedAt observed + 1) := by
  obtain ⟨b, hb, hbid⟩ := h
  have hfind : (currentBookmarks.find? (fun b => b.id == bookmarkId)).isSome := by
    exact List.find?_isSome.mpr ⟨b, hb, by simp [hbid]⟩
  obtain ⟨bf, hbf⟩ := Option.isSome_iff_exists.mp hfind
  have hlen : ¬ currentBookmarks.length =
      (currentBookmarks.filter (fun b => b.id != bookmarkId)).length := by
    have hlt : (currentBookmarks.filter (fun b => b.id != bookmarkId)).length <
        currentBookmarks.length := by
      refine List.length_filter_lt_length_iff_exists.mpr ⟨b, hb, ?_⟩
      simp [hbid]
    omega
  refine ⟨⟨10003, max (latestObservedTimestamp observed + 1) currentTime,
    buildTags (currentBookmarks.filter (fun b => b.id != bookmarkId)), "",
    publicKey⟩, ?_, ?_, ?_⟩
  · unfold deleteBookmark
    rw [hbf]
    simp only [if_neg hlen]
  · show max (latestObservedTimestamp observed + 1) currentTime =
      max (maxObservedCreatedAt observed + 1) currentTime
    rw [latestObservedTimestamp_eq_max]
  · intro hlt
    show max (latestObservedTimestamp observed + 1) currentTime =
      maxObservedCreatedAt observed + 1
    rw [latestObservedTimestamp_eq_max]
    exact max_eq_left (by omega)

/-- Concrete instantiation of claim C1: latest observed timestamp 150,
current time 100; the republished record carries timestamp 151. -/
theorem c1_delete_timestamp_witness :
    (∃ b ∈ ([.website "https://a.com" "A" "https://a.com" "e0" 10] :
        List ProcessedBookmark), b.id = "https://a.com") ∧
    (∃ ev, deleteBookmark "https://a.com" "pk"
        [.website "https://a.com" "A" "https://a.com" "e0" 10]
        [{ id := "old", created_at := 150 }] 100 = .ok ev ∧
      ev.created_at =
        max (maxObservedCreatedAt [{ id := "old", created_at := 150 }] + 1) 100 ∧
      (100 < maxObservedCreatedAt [{ id := "old", created_at := 150 }] →
        ev.created_at =
          maxObservedCreatedAt [{ id := "old", created_at := 150 }] + 1)) :=
  ⟨by decide, c1_delete_timestamp "https://a.com" "pk" _ _ 100 (by decide)⟩

/-- Claim C3: deleting an id that is absent from the freshly fetched
current list fails with the "not found" error; nothing is signed and
nothing reaches the publish loop (no record is handed to the relays). -/
theorem c3_delete_not_found (bookmarkId publicKey : String)
    (currentBookmarks : List ProcessedBookmark) (observed : List NostrEvent)
    (currentTime : Int) (h : ∀ b ∈ currentBookmarks, b.id ≠ bookmarkId) :
    deleteBookmark bookmarkId publicKey currentBookmarks observed currentTime =
      .error ("Bookmark with ID " ++ bookmarkId ++ " not found") ∧
    publishedDrafts (deleteBookmark bookmarkId publicKey currentBookmarks
      observed currentTime) = [] := by
  have hfind : currentBookmarks.find? (fun b => b.id == bookmarkId) = none := by
    refine List.find?_eq_none.mpr ?_
    intro x hx
    simp [h x hx]
  constructor
  · simp only [deleteBookmark, hfind]
  · simp only [publishedDrafts, deleteBookmark, hfind]

/-- Concrete instantiation of claim C3: deleting an unknown id fails with
the "not found" error and publishes nothing. -/
theorem c3_delete_not_found_witness :
    (∀ b ∈ ([.website "https://a.com" "A" "https://a.com" "e0" 10] :
        List ProcessedBookmark), b.id ≠ "https://missing.com") ∧
    (deleteBookmark "https://missing.com" "pk"
        [.website "https://a.com" "A" "https://a.com" "e0" 10] [] 100 =
      .error ("Bookmark with ID " ++ "https://missing.com" ++ " not found") ∧
    publishedDrafts (deleteBookmark "https://missing.com" "pk"
        [.website "https://a.com" "A" "https://a.com" "e0" 10] [] 100) = []) :=
  ⟨by decide, c3_delete_not_found "https://missing.com" "pk" _ [] 100 (by decide)⟩

/-- Claim C10: when no relay connection at all can be established (the
relay set left after `ensureRelayConnections` is empty), `fetchBookmarks`
does not return an empty list but the hard-coded two mock website
bookmarks with ids `https://example.com/1` and `https://example.com/2`
and synthetic timestamps (now and one hour earlier). -/
theorem c10_mock_bookmarks (events refreshedEvents : List NostrEvent)
    (lookup : String → Option String) (nowSec : Int) :
    fetchBookmarks [] events refreshedEvents lookup nowSec =
      mockBookmarks nowSec ∧
    (fetchBookmarks [] events refreshedEvents lookup nowSec).map
      ProcessedBookmark.id = ["https://example.com/1", "https://example.com/2"] ∧
    (fetchBookmarks [] events refreshedEvents lookup nowSec).map
      ProcessedBookmark.createdAt = [nowSec, nowSec - 3600] ∧
    fetchBookmarks [] events refreshedEvents lookup nowSec ≠ [] := by
  refine ⟨rfl, ?_, ?_, ?_⟩ <;>
    simp [fetchBookmarks, mockBookmarks, ProcessedBookmark.id,
      ProcessedBookmark.createdAt]

/-- Concrete instantiation of claim C10 at fixed inputs. -/
theorem c10_mock_bookmarks_witness :
    fetchBookmarks [] [] [] (fun _ => none) 1000 = mockBookmarks 1000 ∧
    (fetchBookmarks [] [] [] (fun _ => none) 1000).map ProcessedBookmark.id =
      ["https://example.com/1", "https://example.com/2"] ∧
    (fetchBookmarks [] [] [] (fun _ => none) 1000).map
      ProcessedBookmark.createdAt = [1000, 1000 - 3600] ∧
    fetchBookmarks [] [] [] (fun _ => none) 1000 ≠ [] :=
  c10_mock_bookmarks [] [] (fun _ => none) 1000

/-- The fields the spec treats as the identity of a bookmark entry: url and
title for websites; referenced record id, optional relay hint, and title
for notes.  The record-level `createdAt`, the record-derived `eventId` of a
website, and the enrichment-only `content` of a note are excluded. -/
inductive EntryData where
  | website (url : String) (title : String)
  | note (referencedRecordId : String) (relayHint : Option String)
      (title : String)
deriving DecidableEq

/-- Projection of a `ProcessedBookmark` onto its `EntryData`. -/
def entryData : ProcessedBookmark → EntryData
  | .website _ title url _ _ => .website url title
  | .note _ title eid hint _ _ => .note eid hint title

/-- The entries the tag encoding can represent invertibly: websites whose
url passes `isValidUrl`, and notes whose relay hint is present and
non-empty (the encoder drops a missing or empty hint, which shifts the
title into the hint position on re-parse). -/
def entryRoundTrippable : ProcessedBookmark → Bool
  | .website _ _ url _ _ => isValidUrl url
  | .note _ _ _ relayHint _ _ =>
    match relayHint with
    | some h => h != ""
    | none => false

/-- Re-parsing the encoding of a round-trippable entry succeeds, preserves
the essential fields, and stamps the entry with the staggered timestamp of
its tag position. -/
theorem parseBookmarkTag_encode (b : ProcessedBookmark)
    (hb : entryRoundTrippable b = true) (recId : String) (c : Int) (i : Nat) :
    ∃ b', parseBookmarkTag recId c i (encodeBookmarkTag b) = some b' ∧
      entryData b' = entryData b ∧ b'.createdAt = c - 60 * (i : Int) := by
  cases b with
  | website id title url eventId createdAt =>
    have hv : isValidUrl url = true := hb
    refine ⟨.website url title url recId (c - 60 * (i : Int)), ?_, rfl, rfl⟩
    simp [parseBookmarkTag, encodeBookmarkTag, hv]
  | note id title eventId relayHint createdAt content =>
    cases relayHint with
    | none => simp [entryRoundTrippable] at hb
    | some hint =>
      have hne : ¬ hint = "" := by
        simpa [entryRoundTrippable] using hb
      refine ⟨.note eventId title eventId (some hint) (c - 60 * (i : Int))
        none, ?_, rfl, rfl⟩
      simp [parseBookmarkTag, encodeBookmarkTag, hne]

/-- Parsing the enumerated encoded tags of a round-trippable entry list
(starting at tag position `n`) recovers the essential fields in order, with
timestamps bounded by the position-`n` stamp, already sorted newest
first. -/
theorem parseEnumFrom_buildTags (es : List ProcessedBookmark)
    (h : ∀ b ∈ es, entryRoundTrippable b = true) (recId : String) (c : Int) :
    ∀ n : Nat,
      ∃ l, ((buildTags es).enumFrom n).filterMap
          (fun p => parseBookmarkTag recId c p.1 p.2) = l ∧
        l.map entryData = es.map entryData ∧
        (∀ b ∈ l, b.createdAt ≤ c - 60 * (n : Int)) ∧
        l.Sorted bookmarkGE := by
  induction es with
  | nil =>
    intro n
    exact ⟨[], by simp [buildTags], by simp, by simp, by simp⟩
  | cons b rest ih =>
    intro n
    obtain ⟨b', hpb, hdata, hca⟩ :=
      parseBookmarkTag_encode b (h b (List.mem_cons_self _ _)) recId c n
    obtain ⟨l', hl', hmap', hbound', hsort'⟩ :=
      ih (fun x hx => h x (List.mem_cons_of_mem _ hx)) (n + 1)
    have hstep : ((n : Int) : Int) ≥ 0 := Int.ofNat_nonneg n
    have hmono : c - 60 * ((n + 1 : Nat) : Int) ≤ c - 60 * (n : Int) := by
      push_cast
      omega
    refine ⟨b' :: l', ?_, ?_, ?_, ?_⟩
    · have : buildTags (b :: rest) = encodeBookmarkTag b :: buildTags rest := rfl
      rw [this, List.enumFrom_cons, List.filterMap_cons]
      simp only [hpb, hl']
    · simp [hdata, hmap']
    · intro x hx
      rcases List.mem_cons.mp hx with hx | hx
      · rw [hx, hca]
      · exact le_trans (hbound' x hx) hmono
    · rw [List.sorted_cons]
      refine ⟨?_, hsort'⟩
      intro x hx
      show x.createdAt ≤ b'.createdAt
      rw [hca]
      exact le_trans (hbound' x hx) hmono

/-- Claim C2 (amended): for every list of entries in which each website url
passes the http(s) validity check and each note carries a present,
non-empty relay hint, encoding the list with the `deleteBookmark` tag
encoding and re-parsing with `parseBookmarkEvent` yields the same entries
(url and title for websites; referenced id, relay hint and title for
notes) in the same order, whatever the record-level id and timestamp. -/
theorem c2_roundtrip (es : List ProcessedBookmark)
    (h : ∀ b ∈ es, entryRoundTrippable b = true) (recId : String) (c : Int) :
    (parseBookmarkEvent
        { id := recId, created_at := c, tags := buildTags es }).map entryData =
      es.map entryData := by
  obtain ⟨l, hl, hmap, _, hsort⟩ := parseEnumFrom_buildTags es h recId c 0
  have hpe : parseEntries recId c (buildTags es) = l := by
    unfold parseEntries
    exact hl
  show (sortBookmarksDesc (parseEntries recId c (buildTags es))).map entryData = _
  unfold sortBookmarksDesc
  rw [hpe, hsort.insertionSort_eq, hmap]

/-- The two entries used to instantiate claim C2 (amended): a website with
a valid url and a note with a non-empty relay hint. -/
def c2WitnessEntries : List ProcessedBookmark :=
  [.website "https://a.com" "A" "https://a.com" "x" 5,
   .note "n1" "B" "n1" (some "wss://r.io") 9 none]

/-- Concrete instantiation of claim C2 (amended) on a valid website and a
hinted note. -/
theorem c2_roundtrip_witness :
    (∀ b ∈ c2WitnessEntries, entryRoundTrippable b = true) ∧
    (parseBookmarkEvent
        { id := "rec", created_at := 1000, tags := buildTags c2WitnessEntries
          }).map entryData = c2WitnessEntries.map entryData :=
  ⟨by decide, c2_roundtrip _ (by decide) "rec" 1000⟩

/-- The two entries that break the round trip of claim C2 as stated: a
website whose url fails the validity check, and a note without a relay
hint. -/
def c2CounterEntries : List ProcessedBookmark :=
  [.website "notaurl" "T" "notaurl" "x" 0,
   .note "n1" "Note Title" "n1" none 0 none]

/-- Counterexample to claim C2 as stated: for a note without a relay hint
the encoder emits the three-element tag of id and title, which re-parses
with the title in the relay-hint position and the default title
"Nostr Note"; a website whose url fails the validity check is dropped
entirely.  The round trip therefore does not preserve the entry list. -/
theorem c2_roundtrip_counterexample :
    (parseBookmarkEvent
        { id := "rec", created_at := 1000, tags := buildTags c2CounterEntries
          }).map entryData ≠ c2CounterEntries.map entryData := by
  decide

/-- Claim C9 (amended): the entry produced from the tag at position `i` of
a record carries `createdAt` equal to the `created_at` of the record minus
`60 * i` — the code staggers the entries one minute apart by tag position
to obtain a sort key; only the entry of the first tag carries the
record timestamp itself. -/
theorem c9_parse_created_at (recId : String) (c : Int) (i : Nat)
    (tag : List String) (b : ProcessedBookmark)
    (h : parseBookmarkTag recId c i tag = some b) :
    b.createdAt = c - 60 * (i : Int) := by
  rcases tag with _ | ⟨t0, _ | ⟨t1, rest⟩⟩
  · simp [parseBookmarkTag] at h
  · simp [parseBookmarkTag] at h
  · simp only [parseBookmarkTag] at h
    split_ifs at h with h1 h2 h3
    · simp only [Option.some.injEq] at h
      rw [← h]
      rfl
    · simp only [Option.some.injEq] at h
      rw [← h]
      rfl

/-- Concrete instantiation of claim C9 (amended): the tag at position 1
yields an entry stamped sixty seconds before the record timestamp. -/
theorem c9_parse_created_at_witness :
    (parseBookmarkTag "rec" 1000 1 ["e", "n", "wss://r.io", "T"] =
      some (.note "n" "T" "n" (some "wss://r.io") 940 none)) ∧
    (ProcessedBookmark.note "n" "T" "n" (some "wss://r.io") 940
        none).createdAt = 1000 - 60 * ((1 : Nat) : Int) :=
  ⟨by decide, c9_parse_created_at "rec" 1000 1 ["e", "n", "wss://r.io", "T"]
    (.note "n" "T" "n" (some "wss://r.io") 940 none) (by decide)⟩

/-- Counterexample to claim C9 as stated: in a record with timestamp 1000
and two "e" tags, the entry parsed from the second tag carries
`createdAt = 940`, not the record timestamp `created_at = 1000`. -/
theorem c9_parse_created_at_counterexample :
    ¬ (∀ b ∈ parseBookmarkEvent
        { id := "rec", created_at := 1000, tags := [["e", "a"], ["e", "b"]] },
        b.createdAt = (1000 : Int)) := by
  decide

/-- Folding `min` over the coercions of a non-empty integer list into
`WithTop Int` (the shape of the `Math.min(...)` in the code over possibly
infinite operands) yields the coercion of the minimum of the list. -/
theorem foldr_min_coe_top (xs : List Int) (hx : xs ≠ []) :
    ∃ m : Int,
      ((xs.map (fun (v : Int) => (v : WithTop Int))).foldr min ⊤ = (m : WithTop Int)) ∧
      m ∈ xs ∧ ∀ x ∈ xs, m ≤ x := by
  induction xs with
  | nil => exact absurd rfl hx
  | cons x rest ih =>
    rcases rest with _ | ⟨y, rest'⟩
    · refine ⟨x, ?_, List.mem_singleton_self x, ?_⟩
      · show min ((x : WithTop Int)) ⊤ = (x : WithTop Int)
        exact min_eq_left le_top
      · intro z hz
        rw [List.mem_singleton.mp hz]
    · obtain ⟨m, hm, hmem, hmin⟩ := ih (by simp)
      refine ⟨min x m, ?_, ?_, ?_⟩
      · show min (x : WithTop Int)
          (((y :: rest').map (fun (v : Int) => (v : WithTop Int))).foldr min ⊤) = _
        rw [hm, ← WithTop.coe_min]
      · rcases min_choice x m with h | h
        · rw [h]; exact List.mem_cons_self _ _
        · rw [h]; exact List.mem_cons_of_mem _ hmem
      · intro z hz
        rcases List.mem_cons.mp hz with h | h
        · rw [h]; exact min_le_left _ _
        · exact le_trans (min_le_right _ _) (hmin z h)

/-- Folding `max` over the coercions of a non-empty integer list into
`WithBot Int` (the shape of the `Math.max(...)` in the code) yields the
coercion of the maximum of the list. -/
theorem foldr_max_coe_bot (xs : List Int) (hx : xs ≠ []) :
    ∃ m : Int,
      ((xs.map (fun (v : Int) => (v : WithBot Int))).foldr max ⊥ = (m : WithBot Int)) ∧
      m ∈ xs ∧ ∀ x ∈ xs, x ≤ m := by
  induction xs with
  | nil => exact absurd rfl hx
  | cons x rest ih =>
    rcases rest with _ | ⟨y, rest'⟩
    · refine ⟨x, ?_, List.mem_singleton_self x, ?_⟩
      · show max ((x : WithBot Int)) ⊥ = (x : WithBot Int)
        exact max_eq_left bot_le
      · intro z hz
        rw [List.mem_singleton.mp hz]
    · obtain ⟨m, hm, hmem, hmax⟩ := ih (by simp)
      refine ⟨max x m, ?_, ?_, ?_⟩
      · show max (x : WithBot Int)
          (((y :: rest').map (fun (v : Int) => (v : WithBot Int))).foldr max ⊥) = _
        rw [hm, ← WithBot.coe_max]
      · rcases max_choice x m with h | h
        · rw [h]; exact List.mem_cons_self _ _
        · rw [h]; exact List.mem_cons_of_mem _ hmem
      · intro z hz
        rcases List.mem_cons.mp hz with h | h
        · rw [h]; exact le_max_left _ _
        · exact le_trans (hmax z h) (le_max_right _ _)

/-- Claim C5 (amended): for every non-empty filter list in which each
filter carries positive `since`, `until` and `limit` values, the single
filter issued by `subscribe` concatenates every list-valued field (kinds,
authors, ids, the `#e` and `#p` tag matches) over the inputs, and sets
`since` to the minimum of the `since` values of the filters, `until` to the
maximum of their `until` values and `limit` to the maximum of their
`limit` values.  (Positivity matters: a value of `0` is falsy in
JavaScript and is replaced by the `Infinity` / `0` defaults before the
minimum / maximum is taken.) -/
theorem c5_filter_merge (filters : List NostrFilter) (hne : filters ≠ [])
    (hpos : ∀ f ∈ filters, 0 < f.since.getD 0 ∧ 0 < f.until'.getD 0 ∧
      0 < f.limit.getD 0) :
    (mergedFilter filters).kinds =
      filters.flatMap (fun f => f.kinds.getD []) ∧
    (mergedFilter filters).authors =
      filters.flatMap (fun f => f.authors.getD []) ∧
    (mergedFilter filters).ids = filters.flatMap (fun f => f.ids.getD []) ∧
    (mergedFilter filters).eTags = filters.flatMap (fun f => f.eTags.getD []) ∧
    (mergedFilter filters).pTags = filters.flatMap (fun f => f.pTags.getD []) ∧
    (∃ m : Int, (mergedFilter filters).since = (m : WithTop Int) ∧
      m ∈ filters.map (fun f => f.since.getD 0) ∧
      ∀ x ∈ filters.map (fun f => f.since.getD 0), m ≤ x) ∧
    (∃ u : Int, (mergedFilter filters).until' = (u : WithBot Int) ∧
      u ∈ filters.map (fun f => f.until'.getD 0) ∧
      ∀ x ∈ filters.map (fun f => f.until'.getD 0), x ≤ u) ∧
    (∃ l : Int, (mergedFilter filters).limit = (l : WithBot Int) ∧
      l ∈ filters.map (fun f => f.limit.getD 0) ∧
      ∀ x ∈ filters.map (fun f => f.limit.getD 0), x ≤ l) := by
  refine ⟨rfl, rfl, rfl, rfl, rfl, ?_, ?_, ?_⟩
  · have hmapeq : filters.map (fun f => jsSinceOrInf f.since) =
        (filters.map (fun f => f.since.getD 0)).map
          (fun (v : Int) => (v : WithTop Int)) := by
      rw [List.map_map]
      refine List.map_congr_left ?_
      intro f hf
      obtain ⟨hs, _, _⟩ := hpos f hf
      rcases hv : f.since with _ | v
      · rw [hv] at hs; simp at hs
      · rw [hv] at hs
        simp only [Option.getD_some] at hs
        have hv0 : ¬ v = 0 := by omega
        simp [jsSinceOrInf, hv, Function.comp, hv0]
    obtain ⟨m, hm, hmem, hmin⟩ :=
      foldr_min_coe_top (filters.map (fun f => f.since.getD 0))
        (by simpa using hne)
    refine ⟨m, ?_, hmem, hmin⟩
    show (filters.map (fun f => jsSinceOrInf f.since)).foldr min ⊤ = _
    rw [hmapeq, hm]
  · have hmapeq : filters.map
          (fun f => ((jsOrZero f.until' : Int) : WithBot Int)) =
        (filters.map (fun f => f.until'.getD 0)).map
          (fun (v : Int) => (v : WithBot Int)) := by
      rw [List.map_map]
      refine List.map_congr_left ?_
      intro f hf
      rcases hv : f.until' with _ | v <;> simp [jsOrZero, hv, Function.comp]
    obtain ⟨u, hu, hmem, hmax⟩ :=
      foldr_max_coe_bot (filters.map (fun f => f.until'.getD 0))
        (by simpa using hne)
    refine ⟨u, ?_, hmem, hmax⟩
    show (filters.map
      (fun f => ((jsOrZero f.until' : Int) : WithBot Int))).foldr max ⊥ = _
    rw [hmapeq, hu]
  · have hmapeq : filters.map
          (fun f => ((jsOrZero f.limit : Int) : WithBot Int)) =
        (filters.map (fun f => f.limit.getD 0)).map
          (fun (v : Int) => (v : WithBot Int)) := by
      rw [List.map_map]
      refine List.map_congr_left ?_
      intro f hf
      rcases hv : f.limit with _ | v <;> simp [jsOrZero, hv, Function.comp]
    obtain ⟨l, hl, hmem, hmax⟩ :=
      foldr_max_coe_bot (filters.map (fun f => f.limit.getD 0))
        (by simpa using hne)
    refine ⟨l, ?_, hmem, hmax⟩
    show (filters.map
      (fun f => ((jsOrZero f.limit : Int) : WithBot Int))).foldr max ⊥ = _
    rw [hmapeq, hl]

/-- Two filters with all range fields present and positive, used to
instantiate claim C5 (amended). -/
def c5Filters : List NostrFilter :=
  [{ kinds := some [1], authors := some ["alice"], since := some 10, until' := some 20, limit := some 5 },
   { kinds := some [3], ids := some ["i1"], since := some 7, until' := some 30, limit := some 2 }]

/-- Concrete instantiation of claim C5 (amended) at `c5Filters`. -/
theorem c5_filter_merge_witness :
    (c5Filters ≠ []) ∧
    (∀ f ∈ c5Filters, 0 < f.since.getD 0 ∧ 0 < f.until'.getD 0 ∧
      0 < f.limit.getD 0) ∧
    ((mergedFilter c5Filters).kinds =
      c5Filters.flatMap (fun f => f.kinds.getD []) ∧
    (mergedFilter c5Filters).authors =
      c5Filters.flatMap (fun f => f.authors.getD []) ∧
    (mergedFilter c5Filters).ids = c5Filters.flatMap (fun f => f.ids.getD []) ∧
    (mergedFilter c5Filters).eTags =
      c5Filters.flatMap (fun f => f.eTags.getD []) ∧
    (mergedFilter c5Filters).pTags =
      c5Filters.flatMap (fun f => f.pTags.getD []) ∧
    (∃ m : Int, (mergedFilter c5Filters).since = (m : WithTop Int) ∧
      m ∈ c5Filters.map (fun f => f.since.getD 0) ∧
      ∀ x ∈ c5Filters.map (fun f => f.since.getD 0), m ≤ x) ∧
    (∃ u : Int, (mergedFilter c5Filters).until' = (u : WithBot Int) ∧
      u ∈ c5Filters.map (fun f => f.until'.getD 0) ∧
      ∀ x ∈ c5Filters.map (fun f => f.until'.getD 0), x ≤ u) ∧
    (∃ l : Int, (mergedFilter c5Filters).limit = (l : WithBot Int) ∧
      l ∈ c5Filters.map (fun f => f.limit.getD 0) ∧
      ∀ x ∈ c5Filters.map (fun f => f.limit.getD 0), x ≤ l)) :=
  ⟨by decide, by decide, c5_filter_merge c5Filters (by decide) (by decide)⟩

/-- Counterexample to claim C5 as stated: with since values 0 and 5 the
minimum of the since values of the filters is 0, but `0` is falsy in JavaScript,
so `f.since || Infinity` discards it and the issued filter carries
`since = 5` instead of `0`. -/
theorem c5_filter_merge_counterexample :
    (mergedFilter [{ since := some 0 }, { since := some 5 }]).since =
      ((5 : Int) : WithTop Int) ∧
    (mergedFilter [{ since := some 0 }, { since := some 5 }]).since ≠
      ((0 : Int) : WithTop Int) ∧
    min (0 : Int) 5 = 0 := by
  refine ⟨?_, ?_, ?_⟩ <;> decide

instance {ε α : Type} [DecidableEq ε] [DecidableEq α] :
    DecidableEq (Except ε α) := fun a b =>
  match a, b with
  | .ok x, .ok y =>
    if h : x = y then isTrue (by rw [h])
    else isFalse (by intro hc; injection hc; contradiction)
  | .error x, .error y =>
    if h : x = y then isTrue (by rw [h])
    else isFalse (by intro hc; injection hc; contradiction)
  | .ok _, .error _ => isFalse (fun hc => Except.noConfusion hc)
  | .error _, .ok _ => isFalse (fun hc => Except.noConfusion hc)

/-- Setting a key in the status map makes it look up to the new value. -/
theorem lookup_mapSet_self (m : List (String × RelayStatusRec)) (k : String)
    (v : RelayStatusRec) : (mapSet m k v).lookup k = some v := by
  induction m with
  | nil => simp [mapSet, List.lookup]
  | cons p rest ih =>
    obtain ⟨k1, v1⟩ := p
    by_cases h : k1 = k
    · subst h
      simp [mapSet, List.lookup]
    · have hbeq : (k == k1) = false := beq_eq_false_iff_ne.mpr (Ne.symm h)
      simp [mapSet, h, List.lookup, hbeq, ih]

/-- Lemma: `applyStatusUpdate` leaves the target set untouched. -/
theorem applyStatusUpdate_targetRelays (s : RelayServiceState) (url : String)
    (st : StatusKind) (e : Option String) :
    (applyStatusUpdate s url st e).targetRelays = s.targetRelays := by
  unfold applyStatusUpdate
  split
  · rfl
  · rfl

/-- Lemma: `updateRelayStatus` leaves the target set untouched. -/
theorem updateRelayStatus_targetRelays (s : RelayServiceState) (url : String)
    (st : StatusKind) (e : Option String) :
    (updateRelayStatus s url st e).targetRelays = s.targetRelays := by
  unfold updateRelayStatus
  cases hl : s.relayStatuses.lookup url with
  | none =>
    simp only [hl]
    exact applyStatusUpdate_targetRelays s url st e
  | some c =>
    simp only [hl]
    by_cases hb : (c.status == st && c.errMsg == e) = true
    · rw [if_pos hb]
    · rw [if_neg hb]
      exact applyStatusUpdate_targetRelays s url st e

/-- Lemma: `updateRelayStatus` with a non-error status leaves the pending
reconnect timers untouched. -/
theorem updateRelayStatus_reconnectPending (s : RelayServiceState)
    (url : String) (st : StatusKind) (e : Option String)
    (h : ¬ st = StatusKind.errorStatus) :
    (updateRelayStatus s url st e).reconnectPending = s.reconnectPending := by
  have happly : (applyStatusUpdate s url st e).reconnectPending =
      s.reconnectPending := by
    unfold applyStatusUpdate
    rw [if_neg (fun hc => h hc.1)]
  unfold updateRelayStatus
  cases hl : s.relayStatuses.lookup url with
  | none =>
    simp only [hl]
    exact happly
  | some c =>
    simp only [hl]
    by_cases hb : (c.status == st && c.errMsg == e) = true
    · rw [if_pos hb]
    · rw [if_neg hb]
      exact happly

/-- After `updateRelayStatus` the url reports the status just stored. -/
theorem statusOf_updateRelayStatus_self (s : RelayServiceState) (url : String)
    (st : StatusKind) (e : Option String) :
    statusOf (updateRelayStatus s url st e) url = some st := by
  have happly : statusOf (applyStatusUpdate s url st e) url = some st := by
    unfold applyStatusUpdate
    split
    · show ((mapSet s.relayStatuses url ⟨st, e⟩).lookup url).map
        RelayStatusRec.status = some st
      rw [lookup_mapSet_self]
      rfl
    · show ((mapSet s.relayStatuses url ⟨st, e⟩).lookup url).map
        RelayStatusRec.status = some st
      rw [lookup_mapSet_self]
      rfl
  unfold updateRelayStatus
  cases hl : s.relayStatuses.lookup url with
  | none =>
    simp only [hl]
    exact happly
  | some c =>
    simp only [hl]
    by_cases hb : (c.status == st && c.errMsg == e) = true
    · rw [if_pos hb]
      simp only [Bool.and_eq_true, beq_iff_eq] at hb
      show ((s.relayStatuses.lookup url).map RelayStatusRec.status) = some st
      rw [hl]
      simp [hb.1]
    · rw [if_neg hb]
      exact happly

/-- A disconnect applied to a relay that is not a target and already
reports `disconnected` is a complete no-op with no close call. -/
theorem disconnectFromRelay_noop (t : RelayServiceState) (url : String)
    (hnt : url ∉ t.targetRelays)
    (hst : statusOf t url = some StatusKind.disconnected) :
    disconnectFromRelay t url = (t, 0) := by
  unfold disconnectFromRelay
  rw [if_neg hnt, if_neg (fun hC => hC hst)]

/-- Claim C7 (amended): `disconnectFromRelay` is idempotent — the second of
two consecutive calls changes nothing and issues no close call on the
underlying connection; after the first call the relay reports
`disconnected` and is not a target (also when it never was one).  A pending
reconnect timer, however, is cleared only when the url was still a target
when `disconnect` ran: the non-target path returns before the timer
bookkeeping, so a pending task of a non-target relay survives. -/
theorem c7_disconnect_idempotent (s : RelayServiceState) (url : String) :
    (disconnectFromRelay (disconnectFromRelay s url).1 url).1 =
      (disconnectFromRelay s url).1 ∧
    (disconnectFromRelay (disconnectFromRelay s url).1 url).2 = 0 ∧
    statusOf (disconnectFromRelay s url).1 url =
      some StatusKind.disconnected ∧
    url ∉ (disconnectFromRelay s url).1.targetRelays ∧
    (url ∈ s.targetRelays →
      url ∉ (disconnectFromRelay s url).1.reconnectPending) := by
  have hstatus : statusOf (disconnectFromRelay s url).1 url =
      some StatusKind.disconnected := by
    by_cases hmem : url ∈ s.targetRelays
    · unfold disconnectFromRelay
      rw [if_pos hmem]
      exact statusOf_updateRelayStatus_self _ _ _ _
    · unfold disconnectFromRelay
      rw [if_neg hmem]
      by_cases hst : statusOf s url ≠ some StatusKind.disconnected
      · rw [if_pos hst]
        exact statusOf_updateRelayStatus_self _ _ _ _
      · rw [if_neg hst]
        exact not_not.mp hst
  have htarget : url ∉ (disconnectFromRelay s url).1.targetRelays := by
    by_cases hmem : url ∈ s.targetRelays
    · simp [disconnectFromRelay, hmem, updateRelayStatus_targetRelays,
        List.mem_filter]
    · simp [disconnectFromRelay, hmem, updateRelayStatus_targetRelays]
      intro hc
      by_cases hst : statusOf s url = some StatusKind.disconnected
      · rw [if_pos hst] at hc
        exact hmem hc
      · rw [if_neg hst] at hc
        rw [updateRelayStatus_targetRelays] at hc
        exact hmem hc
  have hpending : url ∈ s.targetRelays →
      url ∉ (disconnectFromRelay s url).1.reconnectPending := by
    intro hmem
    simp [disconnectFromRelay, hmem, updateRelayStatus_reconnectPending,
      List.mem_filter]
  have hno : disconnectFromRelay (disconnectFromRelay s url).1 url =
      ((disconnectFromRelay s url).1, 0) :=
    disconnectFromRelay_noop _ _ htarget hstatus
  exact ⟨by rw [hno], by rw [hno], hstatus, htarget, hpending⟩

/-- A state with one connected target relay, used to instantiate claim C7
(amended). -/
def c7WitnessState : RelayServiceState :=
  { targetRelays := ["wss://a"],
    relayStatuses := [("wss://a", ⟨StatusKind.connected, none⟩)] }

/-- Concrete instantiation of claim C7 (amended) at a state with one
target relay. -/
theorem c7_disconnect_idempotent_witness :
    (disconnectFromRelay (disconnectFromRelay c7WitnessState "wss://a").1
        "wss://a").1 = (disconnectFromRelay c7WitnessState "wss://a").1 ∧
    (disconnectFromRelay (disconnectFromRelay c7WitnessState "wss://a").1
        "wss://a").2 = 0 ∧
    statusOf (disconnectFromRelay c7WitnessState "wss://a").1 "wss://a" =
      some StatusKind.disconnected ∧
    "wss://a" ∉ (disconnectFromRelay c7WitnessState "wss://a").1.targetRelays ∧
    ("wss://a" ∈ c7WitnessState.targetRelays →
      "wss://a" ∉
        (disconnectFromRelay c7WitnessState "wss://a").1.reconnectPending) :=
  c7_disconnect_idempotent c7WitnessState "wss://a"

/-- Counterexample to claim C7 as stated: after a failed connect attempt
the relay has a scheduled reconnect task but is no longer a target;
`disconnect` then takes the non-target path, normalizes the status to
`disconnected` — but the pending reconnect task survives, so the terminal
state is not "no pending reconnect task". -/
theorem c7_disconnect_pending_counterexample :
    statusOf ((disconnectFromRelay
        ((connectToRelays {} ["wss://a"] (fun _ => some "timeout")).1)
        "wss://a").1) "wss://a" = some StatusKind.disconnected ∧
    "wss://a" ∉ ((disconnectFromRelay
        ((connectToRelays {} ["wss://a"] (fun _ => some "timeout")).1)
        "wss://a").1).targetRelays ∧
    "wss://a" ∈ ((disconnectFromRelay
        ((connectToRelays {} ["wss://a"] (fun _ => some "timeout")).1)
        "wss://a").1).reconnectPending := by
  refine ⟨?_, ?_, ?_⟩ <;> decide

/-- Claim C6 (amended): `connectToRelays` fails with the "no relays
reachable" error exactly when, after all per-url attempts settle, the
passed list was non-empty and the count of `connected` entries across the
whole status map — not only the urls of this call — is zero; the per-url
statuses recorded during the attempt are retained in both outcomes. -/
theorem c6_connect_failure (s : RelayServiceState) (urls : List String)
    (outcome : String → Option String) :
    ((connectToRelays s urls outcome).2 =
        Except.error "Failed to connect to any relays" ↔
      (connectedCount (connectAttemptsState s urls outcome) = 0 ∧
        urls ≠ [])) ∧
    (connectToRelays s urls outcome).1 = connectAttemptsState s urls outcome := by
  unfold connectToRelays
  by_cases hc : connectedCount (connectAttemptsState s urls outcome) = 0 ∧
    urls ≠ []
  · rw [if_pos hc]
    exact ⟨⟨fun _ => hc, fun _ => rfl⟩, rfl⟩
  · rw [if_neg hc]
    exact ⟨⟨fun h => Except.noConfusion h, fun h => absurd h hc⟩, rfl⟩

/-- Concrete instantiation of claim C6 (amended): one unreachable relay
from an empty initial state makes the call fail. -/
theorem c6_connect_failure_witness :
    ((connectToRelays {} ["wss://a"] (fun _ => some "timeout")).2 =
        Except.error "Failed to connect to any relays" ↔
      (connectedCount (connectAttemptsState {} ["wss://a"]
          (fun _ => some "timeout")) = 0 ∧
        (["wss://a"] : List String) ≠ [])) ∧
    (connectToRelays {} ["wss://a"] (fun _ => some "timeout")).1 =
      connectAttemptsState {} ["wss://a"] (fun _ => some "timeout") :=
  c6_connect_failure {} ["wss://a"] (fun _ => some "timeout")

/-- Counterexample to claim C6 as stated: with relay a already connected
from an earlier call, a connect call for the single unreachable relay b
succeeds — the code counts connected relays over the whole status map, so
the failure condition is not "zero connected among the passed set". -/
theorem c6_connect_failure_counterexample :
    (connectToRelays ((connectToRelays {} ["wss://a"] (fun _ => none)).1)
        ["wss://b"] (fun _ => some "connection refused")).2 = Except.ok () ∧
    statusOf ((connectToRelays ((connectToRelays {} ["wss://a"]
          (fun _ => none)).1)
        ["wss://b"] (fun _ => some "connection refused")).1) "wss://b" ≠
      some StatusKind.connected := by
  refine ⟨?_, ?_⟩ <;> decide

/-- The state after a failed connect attempt for relay a: status `error`,
reconnect scheduled, and — the decisive detail — the url already removed
from the target set by the failure handler. -/
def c8AfterFailedConnect : RelayServiceState :=
  (connectToRelays {} ["wss://a"] (fun _ => some "timeout")).1

/-- The state after the user then disconnects relay a, before the
scheduled reconnect fires. -/
def c8AfterDisconnect : RelayServiceState :=
  (disconnectFromRelay c8AfterFailedConnect "wss://a").1

/-- The state after the scheduled reconnect timer fires (the attempt now
succeeds). -/
def c8AfterFire : RelayServiceState :=
  fireReconnect c8AfterDisconnect "wss://a" (fun _ => none)

/-- Claim C8 is violated by the code: the reconnect scheduled by the failed
connect is still pending when the disconnect runs (the disconnect takes the
non-target early return, which skips the timer bookkeeping, because the
failure handler already removed the url from the targets); the timer then
fires, calls `connectToRelays` without any target-membership check, moves
the relay out of `disconnected` (here to `connected`) and re-adds it to
the target set. -/
theorem c8_reconnect_fires_after_disconnect :
    "wss://a" ∈ c8AfterFailedConnect.reconnectPending ∧
    "wss://a" ∉ c8AfterFailedConnect.targetRelays ∧
    statusOf c8AfterDisconnect "wss://a" = some StatusKind.disconnected ∧
    "wss://a" ∈ c8AfterDisconnect.reconnectPending ∧
    statusOf c8AfterFire "wss://a" = some StatusKind.connected ∧
    "wss://a" ∈ c8AfterFire.targetRelays := by
  refine ⟨?_, ?_, ?_, ?_, ?_, ?_⟩ <;> decide
